import Mathlib

/-!
Verification development for the `meh` scripting language
(tokenizer `lex/lex.go`, tree builder `parser/parser.go`, evaluator
`compile/compile.go`, environment `compile/context.go`).

The Go sources are shallowly embedded: every definition below mirrors the
corresponding Go function.  The lexer and the tree builder are written as
fuel-indexed recursions because the Go originals are channel-driven state
machines whose single-threaded sequential composition is the reference
semantics; fuel is consumed only on steps that do not consume input, so a
small constant fuel reserve suffices for any input that the Go code
terminates on, while genuinely non-terminating Go loops exhaust the fuel.

Modelling boundaries (each noted again at its definition):
* `unicode.IsLetter`/`unicode.IsDigit` beyond ASCII are approximated as
  "not a letter/digit"; every theorem below evaluates only ASCII input.
* Go `float64` values are modelled as rationals; the claims proved here
  depend only on which numeric branch is dispatched, never on IEEE
  rounding.
* Go I/O read errors (`bufio.Scanner.Err`) cannot occur on an in-memory
  character list and are not modelled.
-/

namespace Meh

/-- Token kinds, from `lex` `Item` `Type` (`items.go`), including the
keyword kinds emitted by the current `lex.go` `word` scanner. -/
inductive LType where
  | EOF
  | Nada
  | Error
  | Separator
  | Ident
  | Number
  | DoubleQuoteString
  | SingleQuoteString
  | BacktickString
  | HashComment
  | SlashComment
  | LeftBrace
  | RightBrace
  | LeftParen
  | RightParen
  | Not
  | Comma
  | Plus
  | Minus
  | Mult
  | Div
  | Modulo
  | Equal
  | NotEqual
  | Greater
  | GreaterOrEqual
  | Less
  | LessOrEqual
  | Dot
  | Assign
  | Pipe
  | PlusAssign
  | MinusAssign
  | MultAssign
  | DivAssign
  | ModuloAssign
  | Or
  | And
  | Nil
  | Function
  | True
  | False
  | Return
  | Continue
  | Break
deriving DecidableEq

/-- Characters that the hard-rule scanner of this file dislikes as
literals, spelled by code point: left brace, right brace, backtick,
single quote, double quote, vertical tab, form feed, NUL, and the
replacement character that `strings.Builder.WriteRune` stores for the
invalid rune `-1` (the lexer's `eof`). -/
def lbraceChar : Char := Char.ofNat 123

def rbraceChar : Char := Char.ofNat 125

def btickChar : Char := Char.ofNat 96

def squoteChar : Char := Char.ofNat 39

def dquoteChar : Char := Char.ofNat 34

def vtChar : Char := Char.ofNat 11

def ffChar : Char := Char.ofNat 12

def nulChar : Char := Char.ofNat 0

def fffdChar : Char := Char.ofNat 0xFFFD

/-- An `Item` as produced by the lexer (`lex.Item`).  The `Lexer` back
pointer of the Go struct carries only the source name, used in rendered
messages; it is dropped here.  The embedded `error` is modelled as the
optional message text. -/
structure Item where
  type : LType
  value : String
  line : Nat
  column : Nat
  errMsg : Option String := none
deriving DecidableEq

/-- Go `Type.Match(targets...)`. -/
def LType.Match (t : LType) (targets : List LType) : Bool :=
  targets.contains t

/-- Go `singleRuneOperator` from `lex/operators.go`. -/
def singleRuneOperator (r : Char) : LType :=
  if r = lbraceChar then .LeftBrace
  else if r = rbraceChar then .RightBrace
  else
    match r with
    | ';' => .Separator
    | ',' => .Comma
    | '+' => .Plus
    | '-' => .Minus
    | '*' => .Mult
    | '/' => .Div
    | '%' => .Modulo
    | '<' => .Less
    | '>' => .Greater
    | '!' => .Not
    | '.' => .Dot
    | '=' => .Assign
    | '(' => .LeftParen
    | ')' => .RightParen
    | _ => .Error

/-- Go `doubleRuneOperator` from `lex/operators.go`. -/
def doubleRuneOperator (r1 r2 : Char) : LType :=
  if r1 = '>' && r2 = '>' then .Pipe
  else if r1 = '>' && r2 = '=' then .GreaterOrEqual
  else if r2 = '=' then
    match r1 with
    | '!' => .NotEqual
    | '=' => .Equal
    | ':' => .Assign
    | '+' => .PlusAssign
    | '-' => .MinusAssign
    | '*' => .MultAssign
    | '/' => .DivAssign
    | '%' => .ModuloAssign
    | '<' => .LessOrEqual
    | _ => .Error
  else if r1 = '|' && r2 = '|' then .Or
  else if r1 = '&' && r2 = '&' then .And
  else .Error

/-- The `doubleRuneOperator` call in `cleanSlate` receives the peeked
rune, which is `eof` (never matching) when input is exhausted. -/
def doubleRuneOperatorO (r1 : Char) (p : Option Char) : LType :=
  match p with
  | some r2 => doubleRuneOperator r1 r2
  | none => .Error

/-- Go `unicode.IsLetter` restricted to this model: runes at and above
`utf8.RuneSelf` are approximated as non-letters (all claims evaluate
ASCII input only). -/
def goUnicodeIsLetter (_ : Char) : Bool := false

/-- Go `unicode.IsDigit` under the same ASCII restriction. -/
def goUnicodeIsDigit (_ : Char) : Bool := false

/-- Go `isDecimal` from `lex.go`. -/
def isDecimal (ch : Char) : Bool :=
  decide ('0'.toNat ≤ ch.toNat ∧ ch.toNat ≤ '9'.toNat)

/-- Go `isLetter` from `lex.go`: `'a' <= lower(ch) && lower(ch) <= 'z'
|| ch == '_' || ch >= utf8.RuneSelf && unicode.IsLetter(ch)` with
`lower(ch) = ('a' - 'A') | ch`. -/
def isLetter (ch : Char) : Bool :=
  let l : Nat := 32 ||| ch.toNat
  (decide ('a'.toNat ≤ l ∧ l ≤ 'z'.toNat)) || ch = '_' ||
    (decide (128 ≤ ch.toNat) && goUnicodeIsLetter ch)

/-- Go `isDigit` from `lex.go`. -/
def isDigit (ch : Char) : Bool :=
  isDecimal ch || (decide (128 ≤ ch.toNat) && goUnicodeIsDigit ch)

/-- Mutable lexer position and buffer state (`Lexer.current`,
`Lexer.curLine`, `Lexer.curCol`, `Lexer.lastItem.Type`).  Only the type
of `lastItem` is ever read (by `maybeEmitSeparator`), so only it is
kept. -/
structure LexSt where
  current : String
  curLine : Nat
  curCol : Nat
  lastType : LType
deriving DecidableEq

/-- The initial lexer state: line 1, column 1, empty buffer, zero-valued
`lastItem` (whose `Type` is `EOF`, the zero of the enumeration). -/
def initLexSt : LexSt :=
  { current := "", curLine := 1, curCol := 1, lastType := .EOF }

def tabWidth : Nat := 4

/-- Go `Lexer.advancePos`, one rune at a time; `last` is the previous
rune of the same string (starting as the zero rune). -/
def advancePosAux : List Char → Char → Nat → Nat → Nat × Nat
  | [], _, line, col => (line, col)
  | r :: rest, last, line, col =>
    let col := if r = '\t' then (col + 1) + ((col + 1) % tabWidth) else col
    let lc : Nat × Nat :=
      if r = '\n' ∨ (r = '\r' ∧ last ≠ '\n') then (line + 1, 0) else (line, col)
    advancePosAux rest r lc.1 (lc.2 + 1)

/-- Go `Lexer.advancePos` over a whole string. -/
def advancePos (s : String) (line col : Nat) : Nat × Nat :=
  advancePosAux s.data nulChar line col

/-- Go `Lexer.collect`. -/
def collect (st : LexSt) (r : Char) : LexSt :=
  { st with current := st.current.push r }

/-- Go `Lexer.collect` of the rune returned by `next`, which is the
invalid rune `eof = -1` at end of input; `strings.Builder.WriteRune`
stores the replacement character for it. -/
def collectO (st : LexSt) (r : Option Char) : LexSt :=
  match r with
  | some c => collect st c
  | none => collect st fffdChar

/-- Go `Lexer.emit`: build the item from the buffered text at the
buffered position, advance the position over it, reset the buffer, and
remember the item's type unless it is a comment. -/
def emit (t : LType) (st : LexSt) : Item × LexSt :=
  let i : Item := { type := t, value := st.current, line := st.curLine, column := st.curCol }
  let lc := advancePos st.current st.curLine st.curCol
  (i, { current := "", curLine := lc.1, curCol := lc.2,
        lastType := if t = .HashComment ∨ t = .SlashComment then st.lastType else t })

/-- Go `Lexer.emitError`: like `emit` but with type `Error` and the
message attached; `lastItem` is not updated. -/
def emitError (msg : String) (st : LexSt) : Item × LexSt :=
  let i : Item := { type := .Error, value := st.current, line := st.curLine,
                    column := st.curCol, errMsg := some msg }
  let lc := advancePos st.current st.curLine st.curCol
  (i, { st with current := "", curLine := lc.1, curCol := lc.2 })

/-- The token types after which a raw line break is promoted to a
statement separator (the `switch l.lastItem.Type` of
`maybeEmitSeparator`). -/
def sepAfter : List LType :=
  [.Ident, .Number, .DoubleQuoteString, .SingleQuoteString, .BacktickString,
   .RightParen, .RightBrace]

/-- Go `Lexer.maybeEmitSeparator`: on a line-break rune, emit a
`Separator` exactly when the most recently emitted non-comment item can
legally end a statement. -/
def maybeEmitSeparator (r : Char) (st : LexSt) : List Item × LexSt :=
  if (r = '\n' ∨ r = '\r' ∨ r = vtChar ∨ r = ffChar) ∧ st.lastType ∈ sepAfter then
    let (i, st') := emit .Separator st
    ([i], st')
  else ([], st)

/-- The `switch l.current.String()` of the `word` state. -/
def emitWord (st : LexSt) : Item × LexSt :=
  if st.current = "nil" then emit .Nil st
  else if st.current = "fn" then emit .Function st
  else if st.current = "true" then emit .True st
  else if st.current = "false" then emit .False st
  else if st.current = "return" then emit .Return st
  else if st.current = "continue" then emit .Continue st
  else if st.current = "break" then emit .Break st
  else emit .Ident st

/-- The state functions of the lexer (`cleanSlate`, `word`, `number`,
`whitespace`, the two comment scanners and the three string scanners).
`number` carries its local `gotPoint` flag. -/
inductive Mode where
  | cleanSlate
  | word
  | number (gotPoint : Bool)
  | whitespace
  | hashComment
  | slashComment
  | dqString
  | sqString
  | btString
deriving DecidableEq

/-- True for the runes of the whitespace `case` in `cleanSlate` and
`whitespace`. -/
def isWsRune (c : Char) : Bool :=
  c = '\t' || c = '\n' || c = vtChar || c = ffChar || c = '\r' || c = ' '

/-- The single-threaded run of the lexer state machine
(`Lexer.run` driving the `stateFunc`s of `lex.go`), producing the item
stream.  Input exhaustion plays the role of the `eof` rune.  One unit
of fuel is spent per state-machine step so that the recursion is
structural (the kernel can evaluate it); running out of fuel truncates
the stream, and any fuel beyond the step count of a terminating run is
simply left over.  The Go `singleQuoteString` loop that fails to
return after its `emitError` at `eof` surfaces here as one error item
per remaining fuel unit.  Every path on which a state function returns
`nil` appends the final `emit(EOF)` performed by `Lexer.run`. -/
def lexRun : Nat → Mode → LexSt → List Char → List Item
  | 0, _, _, _ => []
  | _ + 1, .cleanSlate, st, [] =>
    let st := collectO st none
    [(emit .EOF st).1]
  | fuel + 1, .cleanSlate, st, c :: rest =>
    let st := collect st c
    if c = lbraceChar ∨ c = rbraceChar then
      -- no early `case` applies to the braces; they reach operator recognition
      let (i, st) := emit (singleRuneOperator c) st
      i :: lexRun fuel .cleanSlate st rest
    else if isWsRune c then
      let (is, st) := maybeEmitSeparator c st
      is ++ lexRun fuel .whitespace st rest
    else if c = '#' then lexRun fuel .hashComment st rest
    else if c = dquoteChar then lexRun fuel .dqString st rest
    else if c = squoteChar then lexRun fuel .sqString st rest
    else if c = btickChar then lexRun fuel .btString st rest
    else if isDecimal c then lexRun fuel (.number false) st rest
    else
      let p : Option Char := rest.head?
      if c = '/' ∧ p = some '/' then lexRun fuel .slashComment st rest
      else
        let op := doubleRuneOperatorO c p
        if op ≠ .Error then
          match rest with
          | p' :: rest' =>
            let st := collect st p'
            let (i, st) := emit op st
            i :: lexRun fuel .cleanSlate st rest'
          | [] => []  -- unreachable: a `none` peek never matches a double-rune operator
        else
          let op := singleRuneOperator c
          if op ≠ .Error then
            let (i, st) := emit op st
            i :: lexRun fuel .cleanSlate st rest
          else if isLetter c then lexRun fuel .word st rest
          else
            let (i, st) := emitError "unrecognized rune" st
            [i, (emit .EOF st).1]
  | fuel + 1, .word, st, [] =>
    -- next is eof: not a letter or digit, so back it up, emit, resume
    let (i, st) := emitWord st
    i :: lexRun fuel .cleanSlate st []
  | fuel + 1, .word, st, c :: rest =>
    if isLetter c || isDigit c then lexRun fuel .word (collect st c) rest
    else
      let (i, st) := emitWord st
      i :: lexRun fuel .cleanSlate st (c :: rest)
  | fuel + 1, .number _, st, [] =>
    -- r = eof: `isLetter(eof)` is false, eof is neither digit nor point
    let (i, st) := emit .Number st
    i :: lexRun fuel .cleanSlate st []
  | fuel + 1, .number gotPoint, st, c :: rest =>
    if isLetter c then
      let (i, st) := emitError "failed to scan number: <nil>" st
      [i, (emit .EOF st).1]
    else if isDecimal c ∨ (c = '.' ∧ gotPoint = false) then
      -- note: `gotPoint = r == '.'` runs on every accepted rune, so a
      -- digit resets the flag
      lexRun fuel (.number (c = '.')) (collect st c) rest
    else
      let (i, st) := emit .Number st
      i :: lexRun fuel .cleanSlate st (c :: rest)
  | fuel + 1, .whitespace, st, [] =>
    let lc := advancePos st.current st.curLine st.curCol
    let st := { st with current := "", curLine := lc.1, curCol := lc.2 }
    lexRun fuel .cleanSlate st []
  | fuel + 1, .whitespace, st, c :: rest =>
    if isWsRune c then
      let st := collect st c
      let (is, st) := maybeEmitSeparator c st
      is ++ lexRun fuel .whitespace st rest
    else
      let lc := advancePos st.current st.curLine st.curCol
      let st := { st with current := "", curLine := lc.1, curCol := lc.2 }
      lexRun fuel .cleanSlate st (c :: rest)
  | fuel + 1, .hashComment, st, [] =>
    let st := collectO st none
    let (i, st) := emit .HashComment st
    i :: lexRun fuel .cleanSlate st []
  | fuel + 1, .hashComment, st, c :: rest =>
    let st := collect st c
    if c = '\n' ∨ c = '\r' then
      let (i, st) := emit .HashComment st
      i :: lexRun fuel .cleanSlate st rest
    else lexRun fuel .hashComment st rest
  | fuel + 1, .slashComment, st, [] =>
    let st := collectO st none
    let (i, st) := emit .SlashComment st
    i :: lexRun fuel .cleanSlate st []
  | fuel + 1, .slashComment, st, c :: rest =>
    let st := collect st c
    if c = '\n' ∨ c = '\r' then
      let (i, st) := emit .SlashComment st
      i :: lexRun fuel .cleanSlate st rest
    else lexRun fuel .slashComment st rest
  | _ + 1, .dqString, st, [] =>
    let (i, st) := emitError "unclosed double quote string" st
    [i, (emit .EOF st).1]
  | fuel + 1, .dqString, st, c :: rest =>
    if c = '\n' ∨ c = '\r' then
      let (i, st) := emitError "unclosed double quote string" st
      [i, (emit .EOF st).1]
    else if c = '\\' then
      let st := collect st c
      match rest with
      | d :: rest2 => lexRun fuel .dqString (collect st d) rest2
      | [] => lexRun fuel .dqString (collectO st none) []
    else
      let st := collect st c
      if c = dquoteChar then
        let (i, st) := emit .DoubleQuoteString st
        i :: lexRun fuel .cleanSlate st rest
      else lexRun fuel .dqString st rest
  | fuel + 1, .sqString, st, [] =>
    -- BUG FAITHFULLY MODELLED: `singleQuoteString` emits its error at
    -- eof but does not return; the loop body then collects the invalid
    -- rune and repeats forever.
    let (i, st) := emitError "unclosed single quote string" st
    let st := collectO st none
    i :: lexRun fuel .sqString st []
  | fuel + 1, .sqString, st, c :: rest =>
    if c = '\\' then
      let st := collect st c
      match rest with
      | d :: rest2 => lexRun fuel .sqString (collect st d) rest2
      | [] => lexRun fuel .sqString (collectO st none) []
    else
      let st := collect st c
      if c = squoteChar then
        let (i, st) := emit .SingleQuoteString st
        i :: lexRun fuel .cleanSlate st rest
      else lexRun fuel .sqString st rest
  | _ + 1, .btString, st, [] =>
    let (i, st) := emitError "unclosed backtick string" st
    [i, (emit .EOF st).1]
  | fuel + 1, .btString, st, c :: rest =>
    let st := collect st c
    if c = btickChar then
      let (i, st) := emit .BacktickString st
      i :: lexRun fuel .cleanSlate st rest
    else lexRun fuel .btString st rest

/-- The item stream of `lex.New` + `Lexer.run` on a whole string.  A
terminating run takes at most three steps per input rune plus a small
constant, so this fuel is never exhausted except by the
`singleQuoteString` bug path. -/
def tokenize (s : String) : List Item :=
  lexRun (4 * s.length + 16) .cleanSlate initLexSt s.data

/-- A parse-tree node (`parser.Node`). -/
inductive Node where
  | mk (item : Item) (resolved : Bool) (children : List Node)

/-- Field accessor for `Node.Item`. -/
def Node.item : Node → Item
  | .mk i _ _ => i

/-- Field accessor for `Node.Resolved`. -/
def Node.resolved : Node → Bool
  | .mk _ r _ => r

/-- Field accessor for `Node.Children`. -/
def Node.children : Node → List Node
  | .mk _ _ c => c

/-- Go `Node.Type()`. -/
def Node.lty (n : Node) : LType := n.item.type

/-- One diagnostic per `log.Printf` call of the tree builder. -/
inductive Diag where
  | statementTooMany (nodes : List Node)
  | statementEmpty
  | unresolvedOperator (item : Item)
  | openWithoutClose (item : Item)

/-- Go `noComment`: drop the two comment item kinds. -/
def noComment (items : List Item) : List Item :=
  items.filter (fun i => ¬(i.type = .HashComment ∨ i.type = .SlashComment))

/-- Go `nodify`: wrap each item, marking literals and identifiers as
already resolved. -/
def nodify (items : List Item) : List Node :=
  items.map (fun i =>
    Node.mk i (i.type.Match
      [.Ident, .Number, .DoubleQuoteString, .SingleQuoteString, .BacktickString]) [])

/-- Go `unresolvedType`: resolved nodes answer `Nada` so they never
match an operator scan. -/
def unresolvedType (n : Node) : LType :=
  if n.resolved then .Nada else n.lty

/-- The folded operator node built by both `binaryOps` scanners:
`Node{Resolved: true, Item: stmt[i+1].Item, Children: {stmt[i], stmt[i+2]}}`. -/
def mkOpNode (op x y : Node) : Node :=
  Node.mk op.item true [x, y]

/-- Stand-in for a Go runtime panic (`index out of range`) in the tree
builder; reachable only from statements no claim exercises, e.g. a
statement whose final node is an unresolved assignment operator. -/
def panicNode : Node :=
  Node.mk { type := .Nada, value := "go panic: index out of range", line := 0, column := 0 }
    false []

/-- One pass of the left-to-right scan inside `binaryOps`: fold the
leftmost still-unresolved matching operator with its two neighbours
(`some` result), or report that no fold applies (`none`).  Mirrors the
`for i := 0; i < len(stmt)-2; i++` loop checking `stmt[i+1]`. -/
def foldLeftmost (ops : List LType) : List Node → Option (List Node)
  | x :: op :: y :: rest =>
    if (unresolvedType op).Match ops then some (mkOpNode op x y :: rest)
    else (foldLeftmost ops (op :: y :: rest)).map (x :: ·)
  | _ => none

/-- The fixed-point loop of `binaryOps(operators...)`, with explicit
fuel; every fold shortens the statement by two nodes, so fuel equal to
the statement length never runs out. -/
def binaryOpsGo : Nat → List LType → List Node → List Node
  | 0, _, stmt => stmt
  | fuel + 1, ops, stmt =>
    match foldLeftmost ops stmt with
    | some s' => binaryOpsGo fuel ops s'
    | none => stmt

/-- Go `binaryOps(operators...)`: repeat the leftmost fold to a fixed
point, which yields left-associative grouping within the tier. -/
def binaryOps (ops : List LType) (stmt : List Node) : List Node :=
  binaryOpsGo stmt.length ops stmt

/-- One pass of the right-to-left scan inside `binaryOpsRightToLeft`:
fold at the rightmost still-unresolved matching operator.  Mirrors the
`for i := len(stmt)-2; i >= 0; i--` loop checking `stmt[i+1]`; when the
matching operator is the final element the Go code indexes `stmt[i+2]`
out of range and panics, modelled by `panicNode`. -/
def foldRightmost (ops : List LType) : List Node → Option (List Node)
  | x :: op :: y :: rest =>
    match foldRightmost ops (op :: y :: rest) with
    | some s' => some (x :: s')
    | none =>
      if (unresolvedType op).Match ops then some (mkOpNode op x y :: rest) else none
  | [_, op] =>
    if (unresolvedType op).Match ops then some [panicNode] else none
  | _ => none

/-- The fixed-point loop of `binaryOpsRightToLeft`, fuelled like
`binaryOpsGo`. -/
def binaryOpsRTLGo : Nat → List LType → List Node → List Node
  | 0, _, stmt => stmt
  | fuel + 1, ops, stmt =>
    match foldRightmost ops stmt with
    | some s' => binaryOpsRTLGo fuel ops s'
    | none => stmt

/-- Go `binaryOpsRightToLeft(operators...)`: repeat the rightmost fold
to a fixed point, which yields right-associative grouping. -/
def binaryOpsRightToLeft (ops : List LType) (stmt : List Node) : List Node :=
  binaryOpsRTLGo stmt.length ops stmt

/-- One pass of `collapse(operators...)`: flatten the first node of a
matching operator kind whose first child is the same kind, absorbing
that child's children. -/
def collapseStep (ops : List LType) : List Node → Option (List Node)
  | [] => none
  | op :: rest =>
    match h : op.children with
    | childOp :: others =>
      if op.lty.Match ops ∧ op.lty = childOp.lty then
        some (Node.mk op.item op.resolved (childOp.children ++ others) :: rest)
      else (collapseStep ops rest).map (op :: ·)
    | [] => (collapseStep ops rest).map (op :: ·)

/-- Go `collapse(operators...)`: repeat `collapseStep` to a fixed
point; the fuel is instantiated with `nodesSize`, which bounds the
number of flattening steps. -/
def collapseF : Nat → List LType → List Node → List Node
  | 0, _, stmt => stmt
  | fuel + 1, ops, stmt =>
    match collapseStep ops stmt with
    | some s' => collapseF fuel ops s'
    | none => stmt

/-- Go `assignOp`. -/
def assignOp : LType → LType
  | .PlusAssign => .Plus
  | .MinusAssign => .Minus
  | .MultAssign => .Mult
  | .DivAssign => .Div
  | .ModuloAssign => .Modulo
  | _ => .Error

/-- Go `reassign`: rewrite the first compound-assignment node
`[+= x y]` into `[= x [+ x y]]` (keeping the source item for
positions) and return; a compound node with fewer than two children
would panic in Go (`panicNode`). -/
def reassign : List Node → List Node
  | [] => []
  | n :: rest =>
    if assignOp n.lty = .Error then n :: reassign rest
    else
      match n.children with
      | c0 :: c1 :: _ =>
        let opNode : Node :=
          Node.mk { n.item with type := assignOp n.lty } n.resolved [c0, c1]
        let newNode : Node :=
          Node.mk { n.item with type := .Assign } n.resolved [c0, opNode]
        newNode :: rest
      | _ => panicNode :: rest

/-- Go `checkResolved`, as the list of diagnostics it logs: one per
node (recursively) still unresolved.  Fuel keeps the nested-tree
recursion structural; one unit is spent per visited node, so any fuel
at or above the total node count gives the full diagnostic list. -/
def checkResolvedDiags : Nat → List Node → List Diag
  | 0, _ => []
  | _ + 1, [] => []
  | fuel + 1, .mk i r cs :: rest =>
    (if r then [] else [.unresolvedOperator i]) ++
      checkResolvedDiags fuel cs ++ checkResolvedDiags fuel rest

/-- Go `slicify`: split the node stream into statements at `Separator`
and `EOF` items, never emitting an empty statement. -/
def slicifyGo (slice : List Node) : List Node → List (List Node)
  | [] => if slice.isEmpty then [] else [slice]
  | n :: rest =>
    if n.lty = .Separator ∨ n.lty = .EOF then
      if slice.isEmpty then slicifyGo [] rest
      else slice :: slicifyGo [] rest
    else slicifyGo (slice ++ [n]) rest

def slicify (nodes : List Node) : List (List Node) :=
  slicifyGo [] nodes

/-- Go `adjustDepth`. -/
def adjustDepth (n : Node) (opn cls : LType) : Int :=
  if n.lty = cls then -1
  else if n.lty = opn then 1
  else 0

/-- The bracketed-region extraction goroutine shared by `parenthify`
and `bracify`: forward nodes into the sub-stream while tracking depth;
the matching close (depth hits zero) is consumed and not forwarded; an
`EOF` node while still open is consumed, logged as an unclosed open,
and ends the region; stream exhaustion simply ends it.  Returns the
sub-stream, the remaining input, and any diagnostic. -/
def takeGroup (opn cls : LType) (openItem : Item) :
    Int → List Node → List Node × List Node × List Diag
  | _, [] => ([], [], [])
  | depth, n :: rest =>
    let depth' := depth + adjustDepth n opn cls
    if depth' = 0 then ([], rest, [])
    else if n.lty = .EOF then ([], rest, [.openWithoutClose openItem])
    else
      let (sub, rest', ds) := takeGroup opn cls openItem depth' rest
      (n :: sub, rest', ds)

def multOps : List LType := [.Mult, .Div, .Modulo]

def addOps : List LType := [.Plus, .Minus]

def cmpOps : List LType := [.Less, .Greater, .LessOrEqual, .GreaterOrEqual, .Equal, .NotEqual]

def boolOps : List LType := [.And, .Or]

def assignOps : List LType :=
  [.Assign, .PlusAssign, .MinusAssign, .MultAssign, .DivAssign, .ModuloAssign]

/-- The per-statement stages of the `parseItems` pipeline, in order,
with the diagnostics of the final `checkResolved` stage.  `bound` is a
node-count bound for the statement (the pipeline's operator folds
preserve node count, and `reassign` at most doubles it), instantiated
by the caller with twice the item count. -/
def processStmt (bound : Nat) (stmt : List Node) : List Node × List Diag :=
  let s := binaryOps multOps stmt
  let s := binaryOps addOps s
  let s := binaryOps cmpOps s
  let s := binaryOps boolOps s
  let s := binaryOps [.Comma] s
  let s := collapseF bound [.Comma] s
  let s := binaryOpsRightToLeft assignOps s
  let s := reassign s
  (s, checkResolvedDiags bound s)

/-- The `for x := range pipeline(...)` loop of `parseItems`: statements
that reduced to one node are kept (resolved or not); statements with
more than one node, or none, are logged and dropped. -/
def parseStmtsLoop (bound : Nat) : List (List Node) → List Node × List Diag
  | [] => ([], [])
  | stmt :: rest =>
    let (s, dsHere) := processStmt bound stmt
    let (ns, dsRest) := parseStmtsLoop bound rest
    match s with
    | [n] => (n :: ns, dsHere ++ dsRest)
    | [] => (ns, dsHere ++ Diag.statementEmpty :: dsRest)
    | _ => (ns, dsHere ++ Diag.statementTooMany s :: dsRest)

/-- The shared loop of Go `parenthify` and `bracify`, abstracted over
the recursive entry into `parseItems` (`parseFn`): parse each
`opn`-delimited region into a single resolved node carrying the
opening item.  The fuel bounds the loop iterations; each iteration
consumes at least the head of the remaining stream, so fuel equal to
the stream length never runs out. -/
def bracketRegions (opn cls : LType) (parseFn : Item → List Node → Node × List Diag) :
    Nat → List Node → List Node × List Diag
  | 0, l => (l, [])
  | _ + 1, [] => ([], [])
  | lfuel + 1, n :: rest =>
    if n.lty = opn then
      let g := takeGroup opn cls n.item 1 rest
      let (pn, ds2) := parseFn n.item g.1
      let o := bracketRegions opn cls parseFn lfuel g.2.1
      (pn :: o.1, g.2.2 ++ ds2 ++ o.2)
    else
      let o := bracketRegions opn cls parseFn lfuel rest
      (n :: o.1, o.2)

/-- Go `parseItems(wrapItem, items)`: resolve bracketed regions
(parentheses first, then braces, as in the
`slicify(bracify(parenthify(items)))` pipeline), split into
statements, reduce each by the staged precedence scans, and wrap the
surviving statements under `wrapItem`.  Fuel bounds bracket nesting
depth (the Go recursion is unbounded); exhaustion yields an empty
block, a model artifact never reached below. -/
def parseItemsF : Nat → Item → List Node → Node × List Diag
  | 0, wrapItem, _ => (Node.mk wrapItem true [], [])
  | fuel + 1, wrapItem, items =>
    let p1 := bracketRegions .LeftParen .RightParen (parseItemsF fuel) items.length items
    let p2 := bracketRegions .LeftBrace .RightBrace (parseItemsF fuel) p1.1.length p1.1
    let (ns, d3) := parseStmtsLoop (2 * items.length + 16) (slicify p2.1)
    (Node.mk wrapItem true ns, p1.2 ++ p2.2 ++ d3)

/-- The implicit outer block item built by `Parser.Parse`. -/
def progItem : Item :=
  { type := .LeftBrace, value := String.singleton lbraceChar, line := 1, column := 1 }

/-- Go `Parser.Parse` on a whole source string: tokenize, drop
comments, nodify, and parse under the implicit outer block. -/
def parseProgram (s : String) : Node × List Diag :=
  parseItemsF (s.length + 16) progItem (nodify (noComment (tokenize s)))

/-- Go `FlowChangeType` from `compile.go`. -/
inductive FlowChangeType where
  | None
  | Return
  | Break
  | Continue
deriving DecidableEq

/-- The runtime `Value` (`compile.Value = interface{}`), closed over
the variants this program constructs: absence (`nil`), `bool`,
`int64`, `float64`, `string`, `compile.Tuple`, a bare `[]Value` slice
(the payload `NewReturn` builds), and `compile.FlowChange`.  `float64`
is modelled as a rational: every claim below depends only on which
numeric branch dispatches, never on IEEE rounding. -/
inductive Value where
  | vnil
  | vbool (b : Bool)
  | vint (i : Int)
  | vfloat (q : Rat)
  | vstr (s : String)
  | vtuple (vs : List Value)
  | vslice (vs : List Value)
  | vflow (t : FlowChangeType) (payload : Value)

/-- Go `NewTuple` (`tuple.go`). -/
def NewTuple (vs : List Value) : Value := .vtuple vs

/-- Go `NewReturn`. -/
def NewReturn (values : List Value) : Value := .vflow .Return (.vslice values)

/-- Go `NewBreak`; the zero `Value` field is absence. -/
def NewBreak : Value := .vflow .Break .vnil

/-- Go `NewContinue`. -/
def NewContinue : Value := .vflow .Continue .vnil

/-- Go `flowChange`: the type assertion `v.(FlowChange)`. -/
def flowChange : Value → FlowChangeType
  | .vflow t _ => t
  | _ => .None

/-- Go `%T` rendering of each value variant, as used by the operator
type error. -/
def typeName : Value → String
  | .vnil => "<nil>"
  | .vbool _ => "bool"
  | .vint _ => "int64"
  | .vfloat _ => "float64"
  | .vstr _ => "string"
  | .vtuple _ => "compile.Tuple"
  | .vslice _ => "[]interface \x7b\x7d"
  | .vflow _ _ => "compile.FlowChange"

/-- Go `Context` of the current `compile.go` (`map[string]Value`); the
registered compilers never read or write it. -/
def Context := List (String × Value)

/-- The only runtime error this program constructs:
`node.Error(fmt.Errorf("cannot apply operator to argument types %T, %T", ...))`,
carrying the operator's item and the two rendered operand types. -/
inductive EvalErr where
  | opTypes (item : Item) (t1 t2 : String)

/-- Compile-time failures of `Compile` and the `compileX` functions.
`goPanic` marks the places where the Go code would panic (indexing
`Children` of a malformed node); `outOfFuel` is the fuel artifact,
unreachable for fuel above the tree depth.  Where Go returns a non-nil
`Expr` alongside the error (`compileIdent`, `compileNumber`), no caller
uses that `Expr`, and the model drops it. -/
inductive CompileErr where
  | cannotCompile (node : Node)
  | badIdent (item : Item)
  | badNumber (item : Item)
  | badString (item : Item)
  | goPanic (node : Node)
  | outOfFuel

/-- Go `Expr`: the variadic trailing `...Value` arguments are never
passed by any call site in this program and are dropped; the
`(Value, error)` pair, whose error is checked first by every call
site, is an `Except`. -/
def Expr := Context → Except EvalErr Value

/-- Go `valFunc`. -/
def valFunc (v : Value) : Expr := fun _ => .ok v

/-- Go `Noop`. -/
def Noop : Expr := fun _ => .ok .vnil

/-- Go `gotInts`. -/
def gotInts : Value → Value → Option (Int × Int)
  | .vint i, .vint j => some (i, j)
  | _, _ => none

/-- The per-operand conversion of `gotFloats` (accept `int64` or
`float64`, converting the former). -/
def toFloat64 : Value → Option Rat
  | .vint i => some (i : Rat)
  | .vfloat f => some f
  | _ => none

/-- Go `gotFloats`. -/
def gotFloats (i j : Value) : Option (Rat × Rat) :=
  match toFloat64 i, toFloat64 j with
  | some iv, some jv => some (iv, jv)
  | _, _ => none

/-- Go `gotStrings`. -/
def gotStrings : Value → Value → Option (String × String)
  | .vstr s, .vstr t => some (s, t)
  | _, _ => none

/-- Two's-complement wrap-around of Go `int64` addition. -/
def int64wrap (z : Int) : Int :=
  (z + 2 ^ 63) % 2 ^ 64 - 2 ^ 63

/-- The body of the closure returned by `compilePlus`, after both
operands have evaluated: try `int64 + int64`, then promote-to-float,
then string concatenation, otherwise the operator type error. -/
def plusCombine (opItem : Item) (lVal rVal : Value) : Except EvalErr Value :=
  match gotInts lVal rVal with
  | some (v1, v2) => .ok (.vint (int64wrap (v1 + v2)))
  | none =>
    match gotFloats lVal rVal with
    | some (v1, v2) => .ok (.vfloat (v1 + v2))
    | none =>
      match gotStrings lVal rVal with
      | some (v1, v2) => .ok (.vstr (v1 ++ v2))
      | none => .error (.opTypes opItem (typeName lVal) (typeName rVal))

/-- The invocation loop of the closure returned by `compileBlock`:
`lastVal` starts as the zero `interface{}` (absence). -/
def runBlock : List Expr → Context → Value → Except EvalErr Value
  | [], _, lastVal => .ok (NewTuple [.vbool true, lastVal])
  | e :: rest, ctx, _ =>
    match e ctx with
    | .error err => .error err
    | .ok v => if flowChange v ≠ .None then .ok v else runBlock rest ctx v

/-- The closure returned by `compileBlock` for child expressions `es`. -/
def blockExpr (es : List Expr) : Expr :=
  fun ctx => runBlock es ctx .vnil

/-- Numeric value of a decimal digit string (no emptiness check). -/
def natOfDigits : List Char → Nat
  | [] => 0
  | c :: rest => natOfDigits rest + (c.toNat - '0'.toNat) * 10 ^ rest.length

/-- Go `strconv.ParseInt(s, 10, 64)` on the strings the lexer can
produce as `Number` values (decimal digits and points only): all-digit
and within `int64` range, else failure.  Sign handling and other
`ParseInt` features are unreachable from this program. -/
def goParseInt (s : String) : Option Int :=
  if s.data ≠ [] ∧ s.data.all isDecimal then
    if natOfDigits s.data < 2 ^ 63 then some (natOfDigits s.data) else none
  else none

/-- Go `strconv.ParseFloat(s, 64)` on the same reachable domain:
at most one point, at least one digit; the value is exact here where
`float64` would round (a documented modelling boundary). -/
def goParseFloat (s : String) : Option Rat :=
  match s.splitOn "." with
  | [ip] =>
    if ip.data ≠ [] ∧ ip.data.all isDecimal then some (natOfDigits ip.data : Rat) else none
  | [ip, fp] =>
    if (ip.data ≠ [] ∨ fp.data ≠ []) ∧ ip.data.all isDecimal ∧ fp.data.all isDecimal then
      some ((natOfDigits ip.data : Rat) + (natOfDigits fp.data : Rat) / 10 ^ fp.data.length)
    else none
  | _ => none

/-- One escape sequence of `strconv.UnquoteChar`: the simple
single-character escapes, with a quote character only unescapable
inside its own quoting flavour.  The `\x`, `\u`, `\U` and octal forms
are not modelled (no claim reaches them). -/
def unquoteEscape (quote c : Char) : Option Char :=
  if c = 'a' then some (Char.ofNat 7)
  else if c = 'b' then some (Char.ofNat 8)
  else if c = 'f' then some ffChar
  else if c = 'n' then some '\n'
  else if c = 'r' then some '\r'
  else if c = 't' then some '\t'
  else if c = 'v' then some vtChar
  else if c = '\\' then some '\\'
  else if (c = dquoteChar ∨ c = squoteChar) ∧ c = quote then some c
  else none

/-- The decoding loop of `strconv.Unquote` for the two escaped
flavours: an unescaped quote character in the body is a syntax
error. -/
def unquoteRun (quote : Char) : List Char → Option (List Char)
  | [] => some []
  | c :: rest =>
    if c = '\\' then
      match rest with
      | e :: rest' =>
        match unquoteEscape quote e with
        | some d => (unquoteRun quote rest').map (d :: ·)
        | none => none
      | [] => none
    else if c = quote then none
    else (unquoteRun quote rest).map (c :: ·)

/-- Go `strconv.Unquote`: matching first/last quote; backtick-raw
content must not contain a backtick and drops carriage returns; the
escaped flavours reject embedded newlines; the single-quote flavour
must decode exactly one character. -/
def goUnquote (s : String) : Option String :=
  let cs := s.data
  if cs.length < 2 then none
  else
    match cs.head?, cs.getLast? with
    | some q, some lastc =>
      if lastc ≠ q then none
      else
        let body := (cs.drop 1).dropLast
        if q = btickChar then
          if body.contains btickChar then none
          else some ⟨body.filter (· ≠ '\r')⟩
        else if q = dquoteChar ∨ q = squoteChar then
          if body.contains '\n' then none
          else
            match unquoteRun q body with
            | some out =>
              if q = squoteChar then
                if out.length = 1 then some ⟨out⟩ else none
              else some ⟨out⟩
            | none => none
        else none
    | _, _ => none

/-- Go `compileIdent`: the three reserved words become fixed values
(via `valFunc`); every other identifier fails to compile. -/
def compileIdent (n : Node) : Except CompileErr Expr :=
  if n.item.value = "true" then .ok (valFunc (.vbool true))
  else if n.item.value = "false" then .ok (valFunc (.vbool false))
  else if n.item.value = "nil" then .ok (valFunc .vnil)
  else .error (.badIdent n.item)

/-- Go `compileNumber`: integer first, float fallback. -/
def compileNumber (n : Node) : Except CompileErr Expr :=
  match goParseInt n.item.value with
  | some i => .ok (valFunc (.vint i))
  | none =>
    match goParseFloat n.item.value with
    | some f => .ok (valFunc (.vfloat f))
    | none => .error (.badNumber n.item)

/-- Go `compileString`: unescape at compile time. -/
def compileString (n : Node) : Except CompileErr Expr :=
  match goUnquote n.item.value with
  | some str => .ok (valFunc (.vstr str))
  | none => .error (.badString n.item)

/-- The child-compilation loop of `compileBlock`, aborting on the
first error; `go` is the recursive entry into `Compile`. -/
def compileStmtsWith (go : Node → Except CompileErr Expr) :
    List Node → Except CompileErr (List Expr)
  | [] => .ok []
  | x :: rest =>
    match go x with
    | .error e => .error e
    | .ok e =>
      match compileStmtsWith go rest with
      | .ok es => .ok (e :: es)
      | .error err => .error err

/-- Go `Compile` together with the dispatch table built by `init`:
exactly block, identifier, number, plus and the three string kinds are
registered; every other node type reports `cannot compile`.  Fuel
bounds the recursion depth (the Go recursion is unbounded); `0` never
occurs at fuel above the tree height. -/
def Compile : Nat → Node → Except CompileErr Expr
  | 0, _ => .error .outOfFuel
  | fuel + 1, n =>
    match n.lty with
    | .LeftBrace =>
      match compileStmtsWith (Compile fuel) n.children with
      | .ok es => .ok (blockExpr es)
      | .error e => .error e
    | .Ident => compileIdent n
    | .Number => compileNumber n
    | .Plus =>
      match n.children with
      | l :: r :: _ =>
        match Compile fuel l with
        | .error e => .error e
        | .ok left =>
          match Compile fuel r with
          | .error e => .error e
          | .ok right =>
            .ok (fun ctx =>
              match left ctx with
              | .error err => .error err
              | .ok lVal =>
                match right ctx with
                | .error err => .error err
                | .ok rVal => plusCombine n.item lVal rVal)
      | _ => .error (.goPanic n)
    | .BacktickString => compileString n
    | .DoubleQuoteString => compileString n
    | .SingleQuoteString => compileString n
    | _ => .error (.cannotCompile n)

/-- The compilation loop of `compileBlock` at a given fuel. -/
def compileStmts (fuel : Nat) : List Node → Except CompileErr (List Expr) :=
  compileStmtsWith (Compile fuel)

/-- Parse, compile and invoke a whole source string on a fresh empty
context (`runProgram` of `main.go` with `compile.Context{}`): the outer
`Except` is the compile error, the inner one the runtime result. -/
def runProgram (s : String) : Except CompileErr (Except EvalErr Value) :=
  match Compile (s.length + 16) (parseProgram s).1 with
  | .error e => .error e
  | .ok prog => .ok (prog [])

/-- The chained environment of `compile/context.go` (`Context` with a
`values` map and a `parent` pointer); `nilctx` is the nil pointer, and
the map is an association list whose lookup sees the latest write. -/
inductive CtxTree where
  | nilctx
  | node (values : List (String × Value)) (parent : CtxTree)

/-- Go `Context.Get`: a nil context answers nil; otherwise look up
locally and fall back to the parent.  A miss everywhere is the absence
value, not an error. -/
def CtxTree.Get : CtxTree → String → Value
  | .nilctx, _ => .vnil
  | .node vs p, name =>
    match vs.lookup name with
    | some v => v
    | none => p.Get name

/-- Go `Context.Set`: always writes the current context's own map. -/
def CtxTree.Set : CtxTree → String → Value → CtxTree
  | .nilctx, _, _ => .nilctx
  | .node vs p, name, v => .node ((name, v) :: vs) p

/-- Whether any frame of the chain binds `name`. -/
def CtxTree.bound : CtxTree → String → Bool
  | .nilctx, _ => false
  | .node vs p, name => (vs.lookup name).isSome || p.bound name

/-- Value-shape discriminators used to state the `+` dispatch claim:
a 64-bit integer, an integer-or-float, a string. -/
def isIntV : Value → Bool
  | .vint _ => true
  | _ => false

def isNumV : Value → Bool
  | .vint _ => true
  | .vfloat _ => true
  | _ => false

def isStrV : Value → Bool
  | .vstr _ => true
  | _ => false

/-- The node types registered in `compilerForType` by `init`. -/
def registeredTypes : List LType :=
  [.LeftBrace, .Ident, .Number, .Plus,
   .BacktickString, .DoubleQuoteString, .SingleQuoteString]

/-- Collect a run of runes into the lexer buffer. -/
def collectList (st : LexSt) : List Char → LexSt
  | [] => st
  | c :: rest => collectList (collect st c) rest

/-- The decimal digit characters, indexed; quantifying over `Fin 10`
lists expresses "any digit string". -/
def digitChar (k : Fin 10) : Char := Char.ofNat (48 + k.val)

def digitStr (ds : List (Fin 10)) : List Char := ds.map digitChar

/-- No node of the forest carries an assignment or compound-assignment
item: the purity hypothesis of the round-trip claim. -/
def noAssignList : List Node → Bool
  | [] => true
  | .mk i _ cs :: rest => !(i.type.Match assignOps) && noAssignList cs && noAssignList rest

def Node.noAssign (n : Node) : Bool := noAssignList [n]

end Meh

namespace Meh

/-! Helper lemmas shared by the claim theorems. -/

theorem ctxGet_miss : ∀ (ctx : CtxTree) (name : String),
    ctx.bound name = false → ctx.Get name = .vnil := by
  intro ctx
  induction ctx with
  | nilctx => intro name _; rfl
  | node vs p ih =>
    intro name h
    simp only [CtxTree.bound, Bool.or_eq_false_iff] at h
    rw [CtxTree.Get]
    rcases hl : vs.lookup name with _ | v
    · exact ih name h.2
    · rw [hl] at h
      simp at h

end Meh

namespace Meh

/-- C10: `Compile` returns an error (and hence no closure) for every
node whose type is outside the set registered in `compilerForType` by
`init`; assignment, the other arithmetic operators, comparisons,
logical and/or, comma groups, parenthesized expressions and the
function-keyword constructs are all unregistered. -/
theorem Compile_unregistered_errors :
    ∀ (fuel : Nat) (n : Node), n.lty.Match registeredTypes = false →
      Compile (fuel + 1) n = .error (.cannotCompile n) := by
  intro fuel n h
  rcases n with ⟨i, r, cs⟩
  rcases ht : i.type <;>
    simp_all [Compile, Node.lty, LType.Match, registeredTypes]

/-- Witness for C10 at a bare assignment node. -/
theorem Compile_unregistered_errors_witness :
    Compile 1 (Node.mk { type := .Assign, value := "=", line := 1, column := 3 } true []) =
      .error (.cannotCompile
        (Node.mk { type := .Assign, value := "=", line := 1, column := 3 } true [])) :=
  Compile_unregistered_errors 0 _ (by decide)

/-- C3 counterexample: compiling the identifier node `x` does not
yield an `Environment.Get` closure — it fails with a compile error. -/
theorem compileIdent_lookup_counterexample :
    Compile 1 (Node.mk { type := .Ident, value := "x", line := 1, column := 1 } true []) =
      .error (.badIdent { type := .Ident, value := "x", line := 1, column := 1 }) := rfl

/-- C3 amended: the reserved words `true`, `false`, `nil` compile to
fixed boolean/absence values; every other identifier fails to compile
with an error naming it (no environment lookup is compiled).  The
chained `Context.Get` of the environment code does return nil-absence
on a lookup miss, but `compileIdent` never uses it. -/
theorem compileIdent_amended :
    (∀ (fuel : Nat) (n : Node), n.lty = .Ident → n.item.value = "true" →
       Compile (fuel + 1) n = .ok (valFunc (.vbool true))) ∧
    (∀ (fuel : Nat) (n : Node), n.lty = .Ident → n.item.value = "false" →
       Compile (fuel + 1) n = .ok (valFunc (.vbool false))) ∧
    (∀ (fuel : Nat) (n : Node), n.lty = .Ident → n.item.value = "nil" →
       Compile (fuel + 1) n = .ok (valFunc .vnil)) ∧
    (∀ (fuel : Nat) (n : Node), n.lty = .Ident →
       n.item.value ∉ (["true", "false", "nil"] : List String) →
       Compile (fuel + 1) n = .error (.badIdent n.item)) ∧
    (∀ name, CtxTree.Get .nilctx name = .vnil) ∧
    (∀ (ctx : CtxTree) (name : String), ctx.bound name = false → ctx.Get name = .vnil) := by
  refine ⟨?_, ?_, ?_, ?_, fun _ => rfl, ctxGet_miss⟩ <;>
    · intro fuel n ht hv
      rcases n with ⟨i, r, cs⟩
      simp only [Node.lty, Node.item] at ht
      simp_all [Compile, compileIdent, Node.lty, Node.item]

/-- Witness for C3 at the reserved word `true`, at the plain
identifier `y`, and at a one-frame environment missing `x`. -/
theorem compileIdent_amended_witness :
    Compile 1 (Node.mk { type := .Ident, value := "true", line := 1, column := 1 } true []) =
      .ok (valFunc (.vbool true)) ∧
    Compile 1 (Node.mk { type := .Ident, value := "y", line := 2, column := 5 } true []) =
      .error (.badIdent { type := .Ident, value := "y", line := 2, column := 5 }) ∧
    CtxTree.Get (.node [("y", .vint 1)] .nilctx) "x" = .vnil :=
  ⟨compileIdent_amended.1 0 _ rfl rfl,
   compileIdent_amended.2.2.2.1 0 _ rfl (by decide),
   compileIdent_amended.2.2.2.2.2 (.node [("y", .vint 1)] .nilctx) "x" (by decide)⟩

/-- C5: during tokenization a raw newline (or vertical tab or form
feed) is promoted to a statement separator exactly when the most
recently emitted non-comment item was an identifier, a number
literal, a string literal of any flavour, a right parenthesis or a
right brace (`emit` skips the comment kinds when recording the last
item); otherwise the line break produces no token.  Tokenizing
`"x\n"` yields identifier `x`, statement separator, end of input. -/
theorem separator_promotion :
    (∀ (r : Char) (st : LexSt), (r = '\n' ∨ r = vtChar ∨ r = ffChar) →
       st.lastType ∈ sepAfter →
       maybeEmitSeparator r st = ([(emit .Separator st).1], (emit .Separator st).2)) ∧
    (∀ (r : Char) (st : LexSt), st.lastType ∉ sepAfter →
       maybeEmitSeparator r st = ([], st)) ∧
    (∀ (t : LType) (st : LexSt), ¬(t = .HashComment ∨ t = .SlashComment) →
       ((emit t st).2).lastType = t) ∧
    (∀ (t : LType) (st : LexSt), (t = .HashComment ∨ t = .SlashComment) →
       ((emit t st).2).lastType = st.lastType) ∧
    (tokenize "x\n").map (fun i => (i.type, i.value)) =
      [(.Ident, "x"), (.Separator, "\n"), (.EOF, String.singleton fffdChar)] := by
  refine ⟨?_, ?_, ?_, ?_, rfl⟩
  · intro r st h1 h2
    rcases h1 with h | h | h <;> subst h <;> simp [maybeEmitSeparator, h2]
  · intro r st h
    simp [maybeEmitSeparator, h]
  · intro t st h
    simp [emit, h]
  · intro t st h
    simp [emit, h]

/-- Witness for C5: a newline after an identifier is promoted; a
newline after a separator is not. -/
theorem separator_promotion_witness :
    maybeEmitSeparator '\n'
        { current := "\n", curLine := 1, curCol := 2, lastType := .Ident } =
      ([(emit .Separator { current := "\n", curLine := 1, curCol := 2, lastType := .Ident }).1],
       (emit .Separator { current := "\n", curLine := 1, curCol := 2, lastType := .Ident }).2) ∧
    maybeEmitSeparator '\n'
        { current := "\n", curLine := 1, curCol := 2, lastType := .Separator } =
      ([], { current := "\n", curLine := 1, curCol := 2, lastType := .Separator }) :=
  ⟨separator_promotion.1 '\n' _ (Or.inl rfl) (by decide),
   separator_promotion.2.1 '\n' _ (by decide)⟩

/-- C6 (code bug demonstrated): on the unterminated single-quoted
string `"'a"` the scanner emits its "unclosed single quote string"
error but, missing the `return` its sibling scanners have, keeps
looping and emits further error items instead of halting after a
single one; and a raw newline inside a single-quoted string is
accepted rather than being a lexical error.  The double-quote scanner
behaves as claimed: one error item carrying a message, then only the
stream-terminating EOF item. -/
theorem unterminated_string_bug :
    2 ≤ (tokenize ⟨[squoteChar, 'a']⟩).countP (fun i => i.type == .Error) ∧
    (tokenize ⟨[squoteChar, 'a', '\n', 'b', squoteChar]⟩).map (fun i => (i.type, i.value)) =
      [(.SingleQuoteString, ⟨[squoteChar, 'a', '\n', 'b', squoteChar]⟩),
       (.EOF, String.singleton fffdChar)] ∧
    (tokenize ⟨[dquoteChar, 'a', 'b']⟩).map (fun i => (i.type, i.value, i.errMsg)) =
      [(.Error, ⟨[dquoteChar, 'a', 'b']⟩, some "unclosed double quote string"),
       (.EOF, "", none)] :=
  ⟨by decide, rfl, rfl⟩

end Meh

namespace Meh

/-- C2: a compiled block evaluates its compiled child statements in
order through `runBlock`: a child error propagates unchanged; a child
result that is a flow-control signal is returned immediately, whatever
statements remain (they are not evaluated — the result does not depend
on `rest`); otherwise, after all children, the tuple
`(true, lastStatementValue)` is returned (the last value starting as
absence for an empty block). -/
theorem compileBlock_flow :
    (∀ (fuel : Nat) (n : Node) (es : List Expr), n.lty = .LeftBrace →
       compileStmts fuel n.children = .ok es →
       Compile (fuel + 1) n = .ok (blockExpr es)) ∧
    (∀ (es : List Expr) (ctx : Context), blockExpr es ctx = runBlock es ctx .vnil) ∧
    (∀ (ctx : Context) (last : Value),
       runBlock [] ctx last = .ok (NewTuple [.vbool true, last])) ∧
    (∀ (e : Expr) (rest : List Expr) (ctx : Context) (last : Value) (err : EvalErr),
       e ctx = .error err → runBlock (e :: rest) ctx last = .error err) ∧
    (∀ (e : Expr) (rest : List Expr) (ctx : Context) (last v : Value),
       e ctx = .ok v → flowChange v ≠ .None → runBlock (e :: rest) ctx last = .ok v) ∧
    (∀ (e : Expr) (rest : List Expr) (ctx : Context) (last v : Value),
       e ctx = .ok v → flowChange v = .None →
       runBlock (e :: rest) ctx last = runBlock rest ctx v) := by
  refine ⟨?_, fun _ _ => rfl, fun _ _ => rfl, ?_, ?_, ?_⟩
  · intro fuel n es ht h
    rcases n with ⟨i, r, cs⟩
    simp only [Node.lty, Node.item] at ht
    simp only [compileStmts, Node.children] at h
    simp [Compile, Node.lty, Node.item, Node.children, ht, h]
  · intro e rest ctx last err h
    simp [runBlock, h]
  · intro e rest ctx last v h hf
    simp [runBlock, h, hf]
  · intro e rest ctx last v h hf
    simp [runBlock, h, hf]

/-- Witness for C2: a concrete two-statement block where the first
statement already carries a flow-control signal, so the second is
never consulted. -/
theorem compileBlock_flow_witness :
    Compile 1 (Node.mk { type := .LeftBrace, value := "", line := 1, column := 1 } true []) =
      .ok (blockExpr []) ∧
    runBlock [valFunc (.vflow .Break .vnil), valFunc (.vint 9)] [] .vnil =
      .ok (.vflow .Break .vnil) :=
  ⟨compileBlock_flow.1 0 _ [] rfl rfl,
   compileBlock_flow.2.2.2.2.1 (valFunc (.vflow .Break .vnil)) [valFunc (.vint 9)] [] .vnil
     (.vflow .Break .vnil) rfl (by decide)⟩

/-- C1: the closure compiled for a `+` node evaluates its two operand
closures and dispatches on the runtime types in fixed order — both
64-bit integers gives the (wrap-around) integer sum; otherwise two
integer-or-float operands are both promoted to float and summed;
otherwise two strings are concatenated; otherwise the result is the
type error naming both operand types.  Evaluating `"1 + 2"` on a fresh
root context yields the tuple `(true, 3)`, and `"1 + \"a\""` yields
the type error naming `int64` and `string`. -/
theorem compilePlus_dispatch :
    (∀ (it : Item) (a b : Int),
       plusCombine it (.vint a) (.vint b) = .ok (.vint (int64wrap (a + b)))) ∧
    (∀ (it : Item) (l r : Value) (lf rf : Rat),
       toFloat64 l = some lf → toFloat64 r = some rf →
       ¬(isIntV l = true ∧ isIntV r = true) →
       plusCombine it l r = .ok (.vfloat (lf + rf))) ∧
    (∀ (it : Item) (s t : String),
       plusCombine it (.vstr s) (.vstr t) = .ok (.vstr (s ++ t))) ∧
    (∀ (it : Item) (l r : Value),
       ¬(isNumV l = true ∧ isNumV r = true) → ¬(isStrV l = true ∧ isStrV r = true) →
       plusCombine it l r = .error (.opTypes it (typeName l) (typeName r))) ∧
    (∀ (fuel : Nat) (i : Item) (res : Bool) (l r : Node) (rest : List Node) (le re : Expr),
       i.type = .Plus → Compile fuel l = .ok le → Compile fuel r = .ok re →
       Compile (fuel + 1) (Node.mk i res (l :: r :: rest)) =
         .ok (fun ctx =>
           match le ctx with
           | .error err => .error err
           | .ok lVal =>
             match re ctx with
             | .error err => .error err
             | .ok rVal => plusCombine i lVal rVal)) ∧
    runProgram "1 + 2" = .ok (.ok (NewTuple [.vbool true, .vint 3])) ∧
    runProgram ⟨['1', ' ', '+', ' ', dquoteChar, 'a', dquoteChar]⟩ =
      .ok (.error (.opTypes { type := .Plus, value := "+", line := 1, column := 3 }
        "int64" "string")) := by
  refine ⟨fun _ _ _ => rfl, ?_, fun _ _ _ => rfl, ?_, ?_, rfl, rfl⟩
  · intro it l r lf rf hl hr hni
    rcases l <;> rcases r <;>
      simp_all [plusCombine, gotInts, gotFloats, gotStrings, toFloat64, isIntV]
  · intro it l r hnn hns
    rcases l <;> rcases r <;>
      simp_all [plusCombine, gotInts, gotFloats, gotStrings, toFloat64,
        isIntV, isNumV, isStrV, typeName]
  · intro fuel i res l r rest le re ht hl hr
    simp [Compile, Node.lty, Node.item, Node.children, ht, hl, hr]

/-- Witness for C1: integer, promoted-float and error dispatch at
concrete operands, and the compiled closure for a concrete `+` node. -/
theorem compilePlus_dispatch_witness :
    plusCombine { type := .Plus, value := "+", line := 1, column := 1 }
        (.vint 1) (.vfloat 2) = .ok (.vfloat (((1 : Int) : Rat) + 2)) ∧
    plusCombine { type := .Plus, value := "+", line := 1, column := 1 }
        .vnil (.vbool true) =
      .error (.opTypes { type := .Plus, value := "+", line := 1, column := 1 }
        "<nil>" "bool") ∧
    Compile 2 (Node.mk { type := .Plus, value := "+", line := 1, column := 3 } true
        [Node.mk { type := .Number, value := "1", line := 1, column := 1 } true [],
         Node.mk { type := .Number, value := "2", line := 1, column := 5 } true []]) =
      .ok (fun ctx =>
        match valFunc (.vint 1) ctx with
        | .error err => .error err
        | .ok lVal =>
          match valFunc (.vint 2) ctx with
          | .error err => .error err
          | .ok rVal =>
            plusCombine { type := .Plus, value := "+", line := 1, column := 3 } lVal rVal) :=
  ⟨compilePlus_dispatch.2.1 _ (.vint 1) (.vfloat 2) _ _ rfl rfl (by decide),
   compilePlus_dispatch.2.2.2.1 _ .vnil (.vbool true) (by decide) (by decide),
   compilePlus_dispatch.2.2.2.2.1 1 _ true _ _ [] (valFunc (.vint 1)) (valFunc (.vint 2))
     rfl rfl rfl⟩

end Meh

namespace Meh

theorem runBlock_const : ∀ (es : List Expr),
    (∀ e ∈ es, ∀ c1 c2, e c1 = e c2) →
    ∀ (c1 c2 : Context) (last : Value), runBlock es c1 last = runBlock es c2 last := by
  intro es
  induction es with
  | nil => intro _ c1 c2 last; rfl
  | cons e rest ih =>
    intro h c1 c2 last
    rw [runBlock, runBlock, show e c2 = e c1 from h e (by simp) c2 c1]
    cases hv : e c1 with
    | error err => rfl
    | ok v =>
      by_cases hf : flowChange v ≠ FlowChangeType.None
      · simp [hf]
      · simp only [hf, if_neg]
        simp at hf
        simp [hf]
        exact ih (fun e' he' => h e' (by simp [he'])) c1 c2 v

theorem compile_const : ∀ (fuel : Nat),
    (∀ (n : Node) (e : Expr), Compile fuel n = .ok e → ∀ c1 c2, e c1 = e c2) ∧
    (∀ (l : List Node) (es : List Expr), compileStmts fuel l = .ok es →
       ∀ e ∈ es, ∀ c1 c2, e c1 = e c2) := by
  intro fuel
  induction fuel with
  | zero =>
    constructor
    · intro n e h
      simp [Compile] at h
    · intro l es h
      match l with
      | [] =>
        simp only [compileStmts, compileStmtsWith] at h
        cases h
        intro e he
        simp at he
      | x :: rest =>
        simp [compileStmts, compileStmtsWith, Compile] at h
  | succ fuel ih =>
    have h1 : ∀ (n : Node) (e : Expr), Compile (fuel + 1) n = .ok e →
        ∀ c1 c2, e c1 = e c2 := by
      intro n e h c1 c2
      rcases n with ⟨i, r, cs⟩
      simp only [Compile, Node.lty, Node.item, Node.children] at h
      split at h
      · -- block
        split at h
        · rename_i es hs
          cases h
          exact runBlock_const es (ih.2 cs es hs) c1 c2 .vnil
        · cases h
      · -- identifier
        simp only [compileIdent, Node.item] at h
        split at h
        · cases h; rfl
        · split at h
          · cases h; rfl
          · split at h
            · cases h; rfl
            · cases h
      · -- number
        simp only [compileNumber, Node.item] at h
        split at h
        · cases h; rfl
        · split at h
          · cases h; rfl
          · cases h
      · -- plus
        split at h
        · rename_i l r rest
          split at h
          · cases h
          · rename_i le hl
            split at h
            · cases h
            · rename_i re hr
              cases h
              have hle := ih.1 l le hl c1 c2
              have hre := ih.1 r re hr c1 c2
              simp only []
              rw [hle, hre]
        · cases h
      · -- backtick string
        simp only [compileString, Node.item] at h
        split at h
        · cases h; rfl
        · cases h
      · -- double quote string
        simp only [compileString, Node.item] at h
        split at h
        · cases h; rfl
        · cases h
      · -- single quote string
        simp only [compileString, Node.item] at h
        split at h
        · cases h; rfl
        · cases h
      · -- unregistered
        cases h
    refine ⟨h1, ?_⟩
    intro l
    induction l with
    | nil =>
      intro es h
      simp only [compileStmts, compileStmtsWith] at h
      cases h
      intro e he
      simp at he
    | cons x rest ihl =>
      intro es h
      simp only [compileStmts, compileStmtsWith] at h
      split at h
      · cases h
      · rename_i e he
        split at h
        · rename_i es' hes
          cases h
          intro f hf
          rcases List.mem_cons.mp hf with rfl | hf2
          · exact h1 x _ he
          · exact ihl es' hes f hf2
        · cases h

/-- C9: compilation is deterministic and every successfully compiled
closure of this evaluator is independent of the environment it is
invoked on, so compiling a pure (assignment-free) node twice and
invoking the two closures on equivalent fresh environments always
produces equal results. -/
theorem compile_pure_roundtrip :
    ∀ (fuel : Nat) (n : Node) (e1 e2 : Expr) (c1 c2 : Context),
      n.noAssign = true →
      Compile fuel n = .ok e1 → Compile fuel n = .ok e2 →
      e1 c1 = e2 c2 := by
  intro fuel n e1 e2 c1 c2 _ h1 h2
  rw [h1] at h2
  cases h2
  exact (compile_const fuel).1 n e1 h1 c1 c2

/-- Witness for C9 at the pure literal node `7` and two different
fresh contexts. -/
theorem compile_pure_roundtrip_witness :
    (valFunc (.vint 7)) [] = (valFunc (.vint 7)) [("x", .vnil)] :=
  compile_pure_roundtrip 1
    (Node.mk { type := .Number, value := "7", line := 1, column := 1 } true [])
    (valFunc (.vint 7)) (valFunc (.vint 7)) [] [("x", .vnil)]
    (by simp [Node.noAssign, noAssignList, LType.Match, assignOps]) rfl rfl

end Meh

namespace Meh

/-- C4: the assignment tier of the tree builder
(`binaryOpsRightToLeft`) folds the rightmost eligible operator first,
giving right-associative grouping, while every left-to-right tier
(`binaryOps`) folds the leftmost eligible operator first, giving
left-associative grouping; parsing `"a = b = 1"` produces
`(= a (= b 1))` with no diagnostics. -/
theorem assignment_right_associative :
    parseProgram "a = b = 1" =
      (Node.mk { type := .LeftBrace, value := String.singleton lbraceChar,
                 line := 1, column := 1 } true
        [Node.mk { type := .Assign, value := "=", line := 1, column := 3 } true
          [Node.mk { type := .Ident, value := "a", line := 1, column := 1 } true [],
           Node.mk { type := .Assign, value := "=", line := 1, column := 7 } true
             [Node.mk { type := .Ident, value := "b", line := 1, column := 5 } true [],
              Node.mk { type := .Number, value := "1", line := 1, column := 9 } true []]]],
       []) ∧
    (∀ (ops : List LType) (x o1 y o2 z : Node),
       x.resolved = true → y.resolved = true → z.resolved = true →
       (unresolvedType o1).Match ops = true → (unresolvedType o2).Match ops = true →
       LType.Nada.Match ops = false →
       binaryOpsRightToLeft ops [x, o1, y, o2, z] = [mkOpNode o1 x (mkOpNode o2 y z)]) ∧
    (∀ (ops : List LType) (x o1 y o2 z : Node),
       x.resolved = true → y.resolved = true → z.resolved = true →
       (unresolvedType o1).Match ops = true → (unresolvedType o2).Match ops = true →
       LType.Nada.Match ops = false →
       binaryOps ops [x, o1, y, o2, z] = [mkOpNode o2 (mkOpNode o1 x y) z]) := by
  refine ⟨rfl, ?_, ?_⟩
  · intro ops x o1 y o2 z hx hy hz e1 e2 hn
    have hx' : (unresolvedType x).Match ops = false := by simp [unresolvedType, hx, hn]
    have hz' : (unresolvedType z).Match ops = false := by simp [unresolvedType, hz, hn]
    have hm : ∀ a b c : Node, (unresolvedType (mkOpNode a b c)).Match ops = false := by
      intro a b c
      simp [unresolvedType, mkOpNode, Node.resolved, hn]
    simp [binaryOpsRightToLeft, binaryOpsRTLGo, foldRightmost, e1, e2, hx', hz', hm]
  · intro ops x o1 y o2 z hx hy hz e1 e2 hn
    have hm : ∀ a b c : Node, (unresolvedType (mkOpNode a b c)).Match ops = false := by
      intro a b c
      simp [unresolvedType, mkOpNode, Node.resolved, hn]
    simp [binaryOps, binaryOpsGo, foldLeftmost, e1, e2, hm]

/-- Witness for C4: right-to-left folding of a double assignment and
left-to-right folding of a double addition at concrete nodes. -/
theorem assignment_right_associative_witness :
    binaryOpsRightToLeft assignOps
        [Node.mk { type := .Ident, value := "a", line := 1, column := 1 } true [],
         Node.mk { type := .Assign, value := "=", line := 1, column := 3 } false [],
         Node.mk { type := .Ident, value := "b", line := 1, column := 5 } true [],
         Node.mk { type := .Assign, value := "=", line := 1, column := 7 } false [],
         Node.mk { type := .Number, value := "1", line := 1, column := 9 } true []] =
      [mkOpNode (Node.mk { type := .Assign, value := "=", line := 1, column := 3 } false [])
        (Node.mk { type := .Ident, value := "a", line := 1, column := 1 } true [])
        (mkOpNode (Node.mk { type := .Assign, value := "=", line := 1, column := 7 } false [])
          (Node.mk { type := .Ident, value := "b", line := 1, column := 5 } true [])
          (Node.mk { type := .Number, value := "1", line := 1, column := 9 } true []))] ∧
    binaryOps addOps
        [Node.mk { type := .Ident, value := "a", line := 1, column := 1 } true [],
         Node.mk { type := .Plus, value := "+", line := 1, column := 3 } false [],
         Node.mk { type := .Ident, value := "b", line := 1, column := 5 } true [],
         Node.mk { type := .Plus, value := "+", line := 1, column := 7 } false [],
         Node.mk { type := .Ident, value := "c", line := 1, column := 9 } true []] =
      [mkOpNode (Node.mk { type := .Plus, value := "+", line := 1, column := 7 } false [])
        (mkOpNode (Node.mk { type := .Plus, value := "+", line := 1, column := 3 } false [])
          (Node.mk { type := .Ident, value := "a", line := 1, column := 1 } true [])
          (Node.mk { type := .Ident, value := "b", line := 1, column := 5 } true []))
        (Node.mk { type := .Ident, value := "c", line := 1, column := 9 } true [])] :=
  ⟨assignment_right_associative.2.1 assignOps _ _ _ _ _ rfl rfl rfl
     (by decide) (by decide) (by decide),
   assignment_right_associative.2.2 addOps _ _ _ _ _ rfl rfl rfl
     (by decide) (by decide) (by decide)⟩

/-- C8 counterexample: the statement `"+"` reduces to a single node
that is still unresolved; the tree builder reports it but keeps the
statement in the AST instead of omitting it. -/
theorem statement_recovery_counterexample :
    parseProgram "+" =
      (Node.mk { type := .LeftBrace, value := String.singleton lbraceChar,
                 line := 1, column := 1 } true
        [Node.mk { type := .Plus, value := "+", line := 1, column := 1 } false []],
       [.unresolvedOperator { type := .Plus, value := "+", line := 1, column := 1 }]) ∧
    (parseProgram "+").1.children.length = 1 :=
  ⟨rfl, rfl⟩

/-- C8 amended: a statement whose reduction leaves more than one node,
or none, is reported and dropped from the AST while the remaining
statements continue to be parsed; a statement that reduces to a single
node is kept even when that node is still unresolved, in which case
`checkResolved` reports it but does not drop it.  Parsing
`"1 2\n3"` drops the bad first statement, reports it, and still parses
`3`. -/
theorem statement_recovery_amended :
    (∀ (bound : Nat) (stmt : List Node) (rest : List (List Node)) (n : Node),
       (processStmt bound stmt).1 = [n] →
       parseStmtsLoop bound (stmt :: rest) =
         (n :: (parseStmtsLoop bound rest).1,
          (processStmt bound stmt).2 ++ (parseStmtsLoop bound rest).2)) ∧
    (∀ (bound : Nat) (stmt : List Node) (rest : List (List Node)),
       (processStmt bound stmt).1 = [] →
       parseStmtsLoop bound (stmt :: rest) =
         ((parseStmtsLoop bound rest).1,
          (processStmt bound stmt).2 ++ .statementEmpty :: (parseStmtsLoop bound rest).2)) ∧
    (∀ (bound : Nat) (stmt : List Node) (rest : List (List Node)) (a b : Node) (s : List Node),
       (processStmt bound stmt).1 = a :: b :: s →
       parseStmtsLoop bound (stmt :: rest) =
         ((parseStmtsLoop bound rest).1,
          (processStmt bound stmt).2 ++
            .statementTooMany (a :: b :: s) :: (parseStmtsLoop bound rest).2)) ∧
    (∀ (fuel : Nat) (i : Item) (cs rest : List Node),
       checkResolvedDiags (fuel + 1) (Node.mk i false cs :: rest) =
         .unresolvedOperator i ::
           (checkResolvedDiags fuel cs ++ checkResolvedDiags fuel rest)) ∧
    parseProgram "1 2\n3" =
      (Node.mk { type := .LeftBrace, value := String.singleton lbraceChar,
                 line := 1, column := 1 } true
        [Node.mk { type := .Number, value := "3", line := 2, column := 1 } true []],
       [.statementTooMany
          [Node.mk { type := .Number, value := "1", line := 1, column := 1 } true [],
           Node.mk { type := .Number, value := "2", line := 1, column := 3 } true []]]) := by
  refine ⟨?_, ?_, ?_, ?_, rfl⟩
  · intro bound stmt rest n h
    rcases hp : processStmt bound stmt with ⟨s, ds⟩
    rw [hp] at h
    simp at h
    subst h
    simp [parseStmtsLoop, hp]
  · intro bound stmt rest h
    rcases hp : processStmt bound stmt with ⟨s, ds⟩
    rw [hp] at h
    simp at h
    subst h
    simp [parseStmtsLoop, hp]
  · intro bound stmt rest a b s h
    rcases hp : processStmt bound stmt with ⟨s', ds⟩
    rw [hp] at h
    simp at h
    subst h
    simp [parseStmtsLoop, hp]
  · intro fuel i cs rest
    simp [checkResolvedDiags]

/-- Witness for C8: the keep case at a concrete single-node statement
and the unresolved-node report at a concrete item. -/
theorem statement_recovery_amended_witness :
    parseStmtsLoop 8
        [[Node.mk { type := .Number, value := "1", line := 1, column := 1 } true []]] =
      ([Node.mk { type := .Number, value := "1", line := 1, column := 1 } true []], []) ∧
    checkResolvedDiags 3
        [Node.mk { type := .Plus, value := "+", line := 1, column := 1 } false []] =
      [.unresolvedOperator { type := .Plus, value := "+", line := 1, column := 1 }] :=
  ⟨statement_recovery_amended.1 8
     [Node.mk { type := .Number, value := "1", line := 1, column := 1 } true []] [] _ rfl,
   statement_recovery_amended.2.2.2.1 2
     { type := .Plus, value := "+", line := 1, column := 1 } [] []⟩

end Meh

namespace Meh

/-! Lemmas about the number scanner on symbolic digit strings, used by
the corrected numeric-literal claim. -/

theorem collectList_spec : ∀ (cs : List Char) (st : LexSt),
    collectList st cs = { st with current := ⟨st.current.data ++ cs⟩ } := by
  intro cs
  induction cs with
  | nil =>
    intro st
    rcases st with ⟨⟨l⟩, li, co, lt⟩
    simp [collectList]
  | cons c rest ih =>
    intro st
    rcases st with ⟨⟨l⟩, li, co, lt⟩
    simp [collectList, collect, String.push, ih]

theorem cleanSlate_digit : ∀ (k : Fin 10) (fuel : Nat) (st : LexSt) (rest : List Char),
    lexRun (fuel + 1) .cleanSlate st (digitChar k :: rest) =
      lexRun fuel (.number false) (collect st (digitChar k)) rest := by
  intro k fuel st rest
  fin_cases k <;> rfl

theorem number_digit : ∀ (k : Fin 10) (gp : Bool) (fuel : Nat) (st : LexSt) (rest : List Char),
    lexRun (fuel + 1) (.number gp) st (digitChar k :: rest) =
      lexRun fuel (.number false) (collect st (digitChar k)) rest := by
  intro k gp fuel st rest
  fin_cases k <;> rfl

theorem number_run : ∀ (ds : List (Fin 10)) (gp : Bool) (fuel : Nat) (st : LexSt)
    (rest : List Char),
    lexRun (ds.length + fuel) (.number gp) st (digitStr ds ++ rest) =
      lexRun fuel (.number (if ds.isEmpty then gp else false))
        (collectList st (digitStr ds)) rest := by
  intro ds
  induction ds with
  | nil =>
    intro gp fuel st rest
    simp [digitStr, collectList]
  | cons k ds' ih =>
    intro gp fuel st rest
    have hlen : (k :: ds').length + fuel = (ds'.length + fuel) + 1 := by
      simp [List.length_cons]
      omega
    rw [hlen]
    simp only [digitStr, List.map_cons, List.cons_append]
    rw [number_digit]
    have := ih false fuel (collect st (digitChar k)) rest
    simp only [digitStr] at this
    rw [this]
    simp [collectList, digitStr, Bool.false_eq_true, if_neg]

theorem number_dot_accept : ∀ (fuel : Nat) (st : LexSt) (rest : List Char),
    lexRun (fuel + 1) (.number false) st ('.' :: rest) =
      lexRun fuel (.number true) (collect st '.') rest := by
  intro fuel st rest
  rfl

theorem number_dot_reject : ∀ (fuel : Nat) (st : LexSt) (rest : List Char),
    lexRun (fuel + 1) (.number true) st ('.' :: rest) =
      (emit .Number st).1 :: lexRun fuel .cleanSlate (emit .Number st).2 ('.' :: rest) := by
  intro fuel st rest
  rfl

theorem number_eof : ∀ (gp : Bool) (fuel : Nat) (st : LexSt),
    lexRun (fuel + 1) (.number gp) st [] =
      (emit .Number st).1 :: lexRun fuel .cleanSlate (emit .Number st).2 [] := by
  intro gp fuel st
  rfl

theorem cleanSlate_eof : ∀ (fuel : Nat) (st : LexSt),
    lexRun (fuel + 1) .cleanSlate st [] = [(emit .EOF (collectO st none)).1] := by
  intro fuel st
  rfl

theorem number_letter : ∀ (c : Char) (gp : Bool) (fuel : Nat) (st : LexSt) (rest : List Char),
    isLetter c = true →
    lexRun (fuel + 1) (.number gp) st (c :: rest) =
      [(emitError "failed to scan number: <nil>" st).1,
       (emit .EOF (emitError "failed to scan number: <nil>" st).2).1] := by
  intro c gp fuel st rest hc
  simp [lexRun, hc]

theorem cleanSlate_dot_digit : ∀ (k : Fin 10) (fuel : Nat) (st : LexSt) (rest : List Char),
    lexRun (fuel + 1) .cleanSlate st ('.' :: digitChar k :: rest) =
      (emit .Dot (collect st '.')).1 ::
        lexRun fuel .cleanSlate (emit .Dot (collect st '.')).2 (digitChar k :: rest) := by
  intro k fuel st rest
  fin_cases k <;> rfl

end Meh

namespace Meh

theorem digitStr_cons (k : Fin 10) (ds : List (Fin 10)) :
    digitStr (k :: ds) = digitChar k :: digitStr ds := rfl

theorem number_run_nil : ∀ (ds : List (Fin 10)) (gp : Bool) (fuel : Nat) (st : LexSt),
    lexRun (ds.length + fuel) (.number gp) st (digitStr ds) =
      lexRun fuel (.number (if ds.isEmpty then gp else false))
        (collectList st (digitStr ds)) [] := by
  intro ds gp fuel st
  have := number_run ds gp fuel st []
  simpa using this

/-- C7 counterexample: `"1.2.3"` contains a second decimal point, yet
the tokenizer emits no error token at all — because `gotPoint` is
reassigned on every accepted rune, a digit resets it, so the whole
text is accepted as one `Number` token. -/
theorem number_second_point_counterexample :
    (tokenize "1.2.3").map (fun i => (i.type, i.value)) =
      [(.Number, "1.2.3"), (.EOF, String.singleton fffdChar)] ∧
    (tokenize "1.2.3").countP (fun i => i.type == .Error) = 0 :=
  ⟨rfl, rfl⟩

/-- C7 amended: while scanning a numeric literal the tokenizer accepts
a decimal point whenever the immediately preceding accepted rune was
not itself a decimal point (each accepted digit resets the flag), so
`digits.digits.digits` is one `Number` token with two points and no
error; only an immediately repeated point ends the number token — with
no error, the extra point rescanned as a `Dot` operator token; a
letter met while scanning the number is a lexical error, after which
no number token is produced.  Stated over arbitrary digit strings
(`Fin 10` lists) and any leftover fuel, plus the concrete runs. -/
theorem number_scan_amended :
    (∀ (k1 k2 k3 : Fin 10) (d1 d2 d3 : List (Fin 10)) (fuel : Nat),
      (lexRun (d1.length + d2.length + d3.length + fuel + 7) .cleanSlate initLexSt
          (digitStr (k1 :: d1) ++ '.' :: digitStr (k2 :: d2) ++ '.' :: digitStr (k3 :: d3))).map
          (fun i => (i.type, i.value)) =
        [(.Number,
          ⟨digitStr (k1 :: d1) ++ '.' :: digitStr (k2 :: d2) ++ '.' :: digitStr (k3 :: d3)⟩),
         (.EOF, String.singleton fffdChar)]) ∧
    (∀ (k1 k3 : Fin 10) (d1 d3 : List (Fin 10)) (fuel : Nat),
      (lexRun (d1.length + d3.length + fuel + 8) .cleanSlate initLexSt
          (digitStr (k1 :: d1) ++ '.' :: '.' :: digitStr (k3 :: d3))).map
          (fun i => (i.type, i.value)) =
        [(.Number, ⟨digitStr (k1 :: d1) ++ ['.']⟩), (.Dot, "."),
         (.Number, ⟨digitStr (k3 :: d3)⟩), (.EOF, String.singleton fffdChar)]) ∧
    (∀ (k1 : Fin 10) (d1 : List (Fin 10)) (c : Char) (suffix : List Char) (fuel : Nat),
      isLetter c = true →
      (lexRun (d1.length + fuel + 2) .cleanSlate initLexSt
          (digitStr (k1 :: d1) ++ c :: suffix)).map (fun i => (i.type, i.errMsg.isSome)) =
        [(.Error, true), (.EOF, false)]) ∧
    (tokenize "1..2").map (fun i => (i.type, i.value)) =
      [(.Number, "1."), (.Dot, "."), (.Number, "2"), (.EOF, String.singleton fffdChar)] ∧
    (tokenize "12a").map (fun i => (i.type, i.value, i.errMsg)) =
      [(.Error, "12", some "failed to scan number: <nil>"), (.EOF, "", none)] := by
  refine ⟨?_, ?_, ?_, rfl, rfl⟩
  · intro k1 k2 k3 d1 d2 d3 fuel
    simp only [digitStr_cons, List.cons_append, List.append_assoc, List.nil_append]
    rw [show d1.length + d2.length + d3.length + fuel + 7
        = (d1.length + (d2.length + d3.length + fuel + 6)) + 1 from by omega]
    rw [cleanSlate_digit, number_run]
    rw [show d2.length + d3.length + fuel + 6
        = (d2.length + d3.length + fuel + 5) + 1 from by omega]
    simp only [ite_self]
    rw [number_dot_accept]
    rw [show d2.length + d3.length + fuel + 5
        = (d2.length + d3.length + fuel + 4) + 1 from by omega]
    rw [number_digit]
    rw [show d2.length + d3.length + fuel + 4
        = d2.length + (d3.length + fuel + 4) from by omega]
    rw [number_run]
    simp only [ite_self]
    rw [show d3.length + fuel + 4 = (d3.length + fuel + 3) + 1 from by omega]
    rw [number_dot_accept]
    rw [show d3.length + fuel + 3 = (d3.length + fuel + 2) + 1 from by omega]
    rw [number_digit]
    rw [show d3.length + fuel + 2 = d3.length + (fuel + 2) from by omega]
    rw [number_run_nil]
    simp only [ite_self]
    rw [show fuel + 2 = (fuel + 1) + 1 from by omega]
    rw [number_eof, cleanSlate_eof]
    simp [emit, collectList_spec, collect, collectO, String.push, String.singleton, initLexSt]
  · intro k1 k3 d1 d3 fuel
    simp only [digitStr_cons, List.cons_append, List.append_assoc, List.nil_append]
    rw [show d1.length + d3.length + fuel + 8
        = (d1.length + (d3.length + fuel + 7)) + 1 from by omega]
    rw [cleanSlate_digit, number_run]
    simp only [ite_self]
    rw [show d3.length + fuel + 7 = (d3.length + fuel + 6) + 1 from by omega]
    rw [number_dot_accept]
    rw [show d3.length + fuel + 6 = (d3.length + fuel + 5) + 1 from by omega]
    rw [number_dot_reject]
    rw [show d3.length + fuel + 5 = (d3.length + fuel + 4) + 1 from by omega]
    rw [cleanSlate_dot_digit]
    rw [show d3.length + fuel + 4 = (d3.length + fuel + 3) + 1 from by omega]
    rw [cleanSlate_digit]
    rw [show d3.length + fuel + 3 = d3.length + (fuel + 3) from by omega]
    rw [number_run_nil]
    simp only [ite_self]
    rw [show fuel + 3 = (fuel + 2) + 1 from by omega]
    rw [number_eof]
    rw [show fuel + 2 = (fuel + 1) + 1 from by omega]
    rw [cleanSlate_eof]
    simp [emit, collectList_spec, collect, collectO, String.push, String.singleton, initLexSt]
  · intro k1 d1 c suffix fuel hc
    simp only [digitStr_cons, List.cons_append, List.append_assoc]
    rw [show d1.length + fuel + 2 = (d1.length + (fuel + 1)) + 1 from by omega]
    rw [cleanSlate_digit, number_run]
    rw [number_letter _ _ _ _ _ hc]
    simp [emit, emitError, collectList_spec, collect, collectO, String.push, initLexSt]

/-- Witness for C7: the letter-error case of the amended claim applied
at the concrete literal `3a`. -/
theorem number_scan_amended_witness :
    (lexRun (0 + 0 + 2) .cleanSlate initLexSt
        (digitStr [3] ++ 'a' :: [])).map (fun i => (i.type, i.errMsg.isSome)) =
      [(.Error, true), (.EOF, false)] :=
  number_scan_amended.2.2.1 3 [] 'a' [] 0 (by decide)

end Meh
